import Mathlib

/-
Verification of the risk-profile assessment pipeline (src/assessment.py).

The pipeline has three pure stages: calculate_gl_score (answer validation and
scoring), scale_to_bibit_score (linear rescaling with rounding to 0.5 steps),
and get_allocations (allocation table lookup), composed by assess_risk.

Modelling choices: Python ints are ℕ (scores, non-negative by the table) or ℤ
(allocation weights); Python floats are ℚ — every float the program produces
comes from exact small integers and halves, so rational arithmetic matches the
binary64 behaviour, with Python round modelled as round-half-to-even on ℚ.
HTTPException raises are an Except error channel with the status codes kept.
-/

deriving instance DecidableEq for Except

/-- Multiple-choice answer letters; the pydantic `Literal["A","B","C","D"]` type. -/
inductive Choice where
  | A | B | C | D
deriving DecidableEq

/-- One submitted answer: a question number and a choice letter
(the `Answer` pydantic model; the question field is an integer). -/
structure Answer where
  question : ℕ
  answer : Choice
deriving DecidableEq

/-- Structured form of the HTTPException raises in src/assessment.py. -/
inductive GLError where
  | duplicate (q : ℕ)
  | unknown (q : ℕ)
  | invalidChoice (q : ℕ) (c : Choice)
  | incomplete
  | allocationNotConfigured (t : ℚ)
deriving DecidableEq

/-- HTTP status code each raise carries in the source: 500 for the
allocation-table miss, 400 for the four input-validation errors. -/
def GLError.status : GLError → ℕ
  | .allocationNotConfigured _ => 500
  | _ => 400

/-- The GL_SCORING_KEY dict: question number ↦ (choice ↦ points), `none`
for keys absent from the dict (missing question, or missing choice in a row). -/
def GL_SCORING_KEY (q : ℕ) : Option (Choice → Option ℕ) :=
  if q = 1 then some fun c => match c with
    | .A => some 4 | .B => some 3 | .C => some 2 | .D => some 1
  else if q = 2 then some fun c => match c with
    | .A => some 1 | .B => some 2 | .C => some 3 | .D => some 4
  else if q = 3 then some fun c => match c with
    | .A => some 1 | .B => some 2 | .C => some 3 | .D => some 4
  else if q = 4 then some fun c => match c with
    | .A => some 1 | .B => some 2 | .C => some 3 | .D => none
  else if q = 5 then some fun c => match c with
    | .A => some 1 | .B => some 2 | .C => some 3 | .D => none
  else if q = 6 then some fun c => match c with
    | .A => some 1 | .B => some 2 | .C => some 3 | .D => some 4
  else if q = 7 then some fun c => match c with
    | .A => some 1 | .B => some 2 | .C => some 3 | .D => some 4
  else if q = 8 then some fun c => match c with
    | .A => some 1 | .B => some 2 | .C => some 3 | .D => some 4
  else if q = 9 then some fun c => match c with
    | .A => some 1 | .B => some 3 | .C => none | .D => none
  else if q = 10 then some fun c => match c with
    | .A => some 1 | .B => some 3 | .C => none | .D => none
  else if q = 11 then some fun c => match c with
    | .A => some 1 | .B => some 2 | .C => some 3 | .D => some 4
  else if q = 12 then some fun c => match c with
    | .A => some 1 | .B => some 2 | .C => some 3 | .D => some 4
  else if q = 13 then some fun c => match c with
    | .A => some 1 | .B => some 2 | .C => some 3 | .D => some 4
  else none

/-- Point value the table assigns to one answer: the two chained dict lookups
`GL_SCORING_KEY[q_num][ans]`, `none` if either key is missing. -/
def answerPts (a : Answer) : Option ℕ :=
  (GL_SCORING_KEY a.question).bind fun row => row a.answer

/-- One allocation record of the BIBIT_ALLOCATIONS table. -/
structure AllocationRecord where
  profile : String
  money_market : ℤ
  obligation : ℤ
  stocks : ℤ
deriving DecidableEq

/-- The BIBIT_ALLOCATIONS dict: float tier key ↦ allocation record,
`none` for keys absent from the dict. -/
def BIBIT_ALLOCATIONS (t : ℚ) : Option AllocationRecord :=
  if t = 1 then some ⟨"Konservatif", 70, 20, 10⟩
  else if t = 3/2 then some ⟨"Konservatif", 70, 20, 10⟩
  else if t = 2 then some ⟨"Konservatif", 58, 32, 10⟩
  else if t = 5/2 then some ⟨"Konservatif", 47, 43, 10⟩
  else if t = 3 then some ⟨"Konservatif", 36, 54, 10⟩
  else if t = 7/2 then some ⟨"Konservatif", 27, 62, 11⟩
  else if t = 4 then some ⟨"Konservatif", 18, 69, 13⟩
  else if t = 9/2 then some ⟨"Moderat", 12, 70, 18⟩
  else if t = 5 then some ⟨"Moderat", 10, 65, 25⟩
  else if t = 11/2 then some ⟨"Moderat", 10, 59, 31⟩
  else if t = 6 then some ⟨"Moderat", 10, 53, 37⟩
  else if t = 13/2 then some ⟨"Moderat", 10, 48, 42⟩
  else if t = 7 then some ⟨"Moderat", 10, 43, 47⟩
  else if t = 15/2 then some ⟨"Agresif", 10, 38, 52⟩
  else if t = 8 then some ⟨"Agresif", 10, 34, 56⟩
  else if t = 17/2 then some ⟨"Agresif", 10, 29, 61⟩
  else if t = 9 then some ⟨"Agresif", 10, 24, 66⟩
  else if t = 19/2 then some ⟨"Agresif", 10, 20, 70⟩
  else if t = 10 then some ⟨"Agresif", 10, 20, 70⟩
  else none

/-- The for-loop of calculate_gl_score: `answered` is the running
`answered_questions` set and `score` the running sum; after the loop the
source checks `len(answered_questions) != 13`. The set-insert happens before
the key checks exactly as in the source (on an error path the set is
discarded, so carrying it into the recursive call is observationally the
same placement). -/
def calcGo (answered : Finset ℕ) (score : ℕ) : List Answer → Except GLError ℕ
  | [] =>
    if answered.card ≠ 13 then Except.error GLError.incomplete
    else Except.ok score
  | a :: rest =>
    if a.question ∈ answered then Except.error (GLError.duplicate a.question)
    else
      match GL_SCORING_KEY a.question with
      | none => Except.error (GLError.unknown a.question)
      | some row =>
        match row a.answer with
        | none => Except.error (GLError.invalidChoice a.question a.answer)
        | some pts => calcGo (insert a.question answered) (score + pts) rest

/-- calculate_gl_score from src/assessment.py: scan the answers left to
right, failing on a repeated question, an unknown question number, or a
choice not defined in the row of the question; after the scan fail unless
exactly 13 distinct questions were answered; on success return the score
as a float (`float(score)`, modelled as the cast ℕ → ℚ). -/
def calculate_gl_score (answers : List Answer) : Except GLError ℚ :=
  (calcGo ∅ 0 answers).map fun s => (s : ℚ)

/-- Round-half-to-even on ℚ, the behaviour of the Python built-in `round`
on the exact value of its argument. -/
def rhe (q : ℚ) : ℤ :=
  if Int.fract q < 1/2 then ⌊q⌋
  else if 1/2 < Int.fract q then ⌊q⌋ + 1
  else if ⌊q⌋ % 2 = 0 then ⌊q⌋ else ⌊q⌋ + 1

/-- scale_to_bibit_score from src/assessment.py: clamp at the domain ends,
otherwise linearly interpolate `Y_min + gl_score * (Y_max - Y_min) / (X_max -
X_min)`, round to the nearest 0.5 step (`round(unrounded / step) * step`),
and force the result into [1, 10]. -/
def scale_to_bibit_score (gl_score : ℚ) : ℚ :=
  if gl_score ≤ 0 then 1
  else if 47 ≤ gl_score then 10
  else
    let unrounded : ℚ := 1 + gl_score * (10 - 1) / (47 - 0)
    let step : ℚ := 1/2
    let rounded : ℚ := (rhe (unrounded / step) : ℚ) * step
    max 1 (min 10 rounded)

/-- get_allocations from src/assessment.py: look the tier up in
BIBIT_ALLOCATIONS, raising the 500-status error when it is absent. -/
def get_allocations (bibit_score : ℚ) : Except GLError AllocationRecord :=
  match BIBIT_ALLOCATIONS bibit_score with
  | none => Except.error (GLError.allocationNotConfigured bibit_score)
  | some record => Except.ok record

/-- The success response of the /assess-risk endpoint (AllocationResponse);
the three allocation weights are serialized as floats. -/
structure AllocationResponse where
  gl_score : ℚ
  risk_profile_score : ℚ
  profile : String
  money_market : ℚ
  obligation : ℚ
  stocks : ℚ
deriving DecidableEq

/-- The assess_risk handler: score, rescale, look up, and assemble the
response; any raised error propagates unchanged. -/
def assess_risk (answers : List Answer) : Except GLError AllocationResponse :=
  match calculate_gl_score answers with
  | .error e => .error e
  | .ok gl_score =>
    let bibit_score := scale_to_bibit_score gl_score
    match get_allocations bibit_score with
    | .error e => .error e
    | .ok record =>
      .ok ⟨gl_score, bibit_score, record.profile,
           (record.money_market : ℚ), (record.obligation : ℚ), (record.stocks : ℚ)⟩

/-- The 19 normalized tier values {1.0, 1.5, ..., 10.0} (pairwise distinct,
see tierValues_nodup). -/
def tierValues : List ℚ :=
  [1, 3/2, 2, 5/2, 3, 7/2, 4, 9/2, 5, 11/2, 6, 13/2, 7, 15/2, 8, 17/2, 9, 19/2, 10]

/-- The answer set picking, for every question, the choice with the maximum
point value in the scoring table (the row of question 1 is reversed, so that is A
there; C on the three-choice questions 4 and 5; B on the binary questions 9
and 10; D elsewhere). -/
def allMaxAnswers : List Answer :=
  [⟨1, .A⟩, ⟨2, .D⟩, ⟨3, .D⟩, ⟨4, .C⟩, ⟨5, .C⟩, ⟨6, .D⟩, ⟨7, .D⟩, ⟨8, .D⟩,
   ⟨9, .B⟩, ⟨10, .B⟩, ⟨11, .D⟩, ⟨12, .D⟩, ⟨13, .D⟩]

/-- The answer set picking the minimum-point choice everywhere
(D on question 1, A elsewhere). -/
def allMinAnswers : List Answer :=
  [⟨1, .D⟩, ⟨2, .A⟩, ⟨3, .A⟩, ⟨4, .A⟩, ⟨5, .A⟩, ⟨6, .A⟩, ⟨7, .A⟩, ⟨8, .A⟩,
   ⟨9, .A⟩, ⟨10, .A⟩, ⟨11, .A⟩, ⟨12, .A⟩, ⟨13, .A⟩]

/-! Properties of round-half-to-even. -/

lemma fract_eq (q : ℚ) : Int.fract q = q - ⌊q⌋ := rfl

lemma rhe_le (q : ℚ) : (rhe q : ℚ) ≤ q + 1/2 := by
  have h0 : (0:ℚ) ≤ Int.fract q := Int.fract_nonneg q
  have h1 : Int.fract q < 1 := Int.fract_lt_one q
  have hf : Int.fract q = q - ⌊q⌋ := fract_eq q
  unfold rhe
  split_ifs with hlt hgt hev
  · linarith
  · push_cast
    linarith
  · linarith
  · push_cast
    push_neg at hlt hgt
    linarith

lemma rhe_ge (q : ℚ) : q - 1/2 ≤ (rhe q : ℚ) := by
  have h0 : (0:ℚ) ≤ Int.fract q := Int.fract_nonneg q
  have h1 : Int.fract q < 1 := Int.fract_lt_one q
  have hf : Int.fract q = q - ⌊q⌋ := fract_eq q
  unfold rhe
  split_ifs with hlt hgt hev
  · linarith
  · push_cast
    linarith
  · push_neg at hlt hgt
    linarith
  · push_cast
    linarith

lemma rhe_tie_up {q : ℚ} (h : (rhe q : ℚ) = q + 1/2) : ⌊q⌋ % 2 ≠ 0 := by
  have h0 : (0:ℚ) ≤ Int.fract q := Int.fract_nonneg q
  have h1 : Int.fract q < 1 := Int.fract_lt_one q
  have hf : Int.fract q = q - ⌊q⌋ := fract_eq q
  unfold rhe at h
  split_ifs at h with hlt hgt hev
  · linarith
  · push_cast at h
    linarith
  · linarith
  · exact hev

lemma rhe_tie_down {q : ℚ} (h : (rhe q : ℚ) = q - 1/2) : ⌊q⌋ % 2 = 0 := by
  have h0 : (0:ℚ) ≤ Int.fract q := Int.fract_nonneg q
  have h1 : Int.fract q < 1 := Int.fract_lt_one q
  have hf : Int.fract q = q - ⌊q⌋ := fract_eq q
  unfold rhe at h
  split_ifs at h with hlt hgt hev
  · linarith
  · push_cast at h
    linarith
  · exact hev
  · push_cast at h
    linarith

lemma rhe_mono {x y : ℚ} (h : x ≤ y) : rhe x ≤ rhe y := by
  by_contra hc
  push_neg at hc
  have h1 : rhe y + 1 ≤ rhe x := hc
  have h1q : (rhe y : ℚ) + 1 ≤ (rhe x : ℚ) := by exact_mod_cast h1
  have hx_le := rhe_le x
  have hy_ge := rhe_ge y
  have e1 : (rhe x : ℚ) = x + 1/2 := le_antisymm hx_le (by linarith)
  have e2 : (rhe y : ℚ) = y - 1/2 := le_antisymm (by linarith) hy_ge
  have e3 : x = y := le_antisymm h (by linarith)
  have o1 := rhe_tie_up e1
  have o2 := rhe_tie_down e2
  rw [e3] at o1
  exact o1 o2

/-! Properties of the rescaler. -/

lemma scale_nonpos {x : ℚ} (h : x ≤ 0) : scale_to_bibit_score x = 1 := by
  unfold scale_to_bibit_score
  rw [if_pos h]

lemma scale_large {x : ℚ} (h0 : 0 < x) (h : 47 ≤ x) : scale_to_bibit_score x = 10 := by
  unfold scale_to_bibit_score
  rw [if_neg (not_le.mpr h0), if_pos h]

lemma scale_eq_mid {x : ℚ} (h0 : 0 < x) (h47 : x < 47) :
    scale_to_bibit_score x =
      max 1 (min 10 ((rhe ((1 + x * 9 / 47) / (1/2)) : ℚ) * (1/2))) := by
  unfold scale_to_bibit_score
  rw [if_neg (not_le.mpr h0), if_neg (not_le.mpr h47)]
  norm_num

lemma one_le_scale (x : ℚ) : 1 ≤ scale_to_bibit_score x := by
  unfold scale_to_bibit_score
  split_ifs
  · exact le_refl 1
  · norm_num
  · exact le_max_left 1 _

lemma scale_le_ten (x : ℚ) : scale_to_bibit_score x ≤ 10 := by
  unfold scale_to_bibit_score
  split_ifs
  · norm_num
  · exact le_refl 10
  · exact max_le (by norm_num) (min_le_left 10 _)

lemma half_steps_mem {n : ℤ} (h2 : 2 ≤ n) (h20 : n ≤ 20) :
    (n : ℚ) * (1/2) ∈ tierValues := by
  interval_cases n <;> norm_num [tierValues]

lemma clamp_mem (k : ℤ) : max 1 (min 10 ((k : ℚ) * (1/2))) ∈ tierValues := by
  rcases le_or_lt k 2 with hk | hk
  · have hle : ((k : ℚ) * (1/2)) ≤ 1 := by
      have hc : (k : ℚ) ≤ 2 := by exact_mod_cast hk
      linarith
    rw [min_eq_right (le_trans hle (by norm_num)), max_eq_left hle]
    norm_num [tierValues]
  · rcases le_or_lt 20 k with hk2 | hk2
    · have hge : (10 : ℚ) ≤ (k : ℚ) * (1/2) := by
        have hc : (20 : ℚ) ≤ (k : ℚ) := by exact_mod_cast hk2
        linarith
      rw [min_eq_left hge, max_eq_right (by norm_num : (1:ℚ) ≤ 10)]
      norm_num [tierValues]
    · have h1 : (1:ℚ) ≤ (k : ℚ) * (1/2) := by
        have hc : (3 : ℚ) ≤ (k : ℚ) := by exact_mod_cast hk
        linarith
      have h10 : (k : ℚ) * (1/2) ≤ 10 := by
        have hc : (k : ℚ) ≤ 19 := by exact_mod_cast (by omega : k ≤ 19)
        linarith
      rw [min_eq_right h10, max_eq_right h1]
      exact half_steps_mem (by omega) (by omega)

lemma scale_mem_tiers (x : ℚ) : scale_to_bibit_score x ∈ tierValues := by
  rcases le_or_lt x 0 with h | h
  · rw [scale_nonpos h]
    norm_num [tierValues]
  · rcases le_or_lt 47 x with h47 | h47
    · rw [scale_large h h47]
      norm_num [tierValues]
    · rw [scale_eq_mid h h47]
      exact clamp_mem _

lemma scale_mono {a b : ℚ} (hab : a ≤ b) :
    scale_to_bibit_score a ≤ scale_to_bibit_score b := by
  rcases le_or_lt a 0 with ha | ha
  · rw [scale_nonpos ha]
    exact one_le_scale b
  · rcases le_or_lt 47 b with hb | hb
    · rw [scale_large (lt_of_lt_of_le ha hab) hb]
      exact scale_le_ten a
    · have ha47 : a < 47 := lt_of_le_of_lt hab hb
      have hb0 : 0 < b := lt_of_lt_of_le ha hab
      rw [scale_eq_mid ha ha47, scale_eq_mid hb0 hb]
      have hu : (1 + a * 9 / 47) / (1/2) ≤ (1 + b * 9 / 47) / (1/2) := by
        have h9 : a * 9 / 47 ≤ b * 9 / 47 :=
          (div_le_div_iff_of_pos_right (by norm_num : (0:ℚ) < 47)).mpr (by linarith)
        exact (div_le_div_iff_of_pos_right (by norm_num : (0:ℚ) < 1/2)).mpr (by linarith)
      have hrq : ((rhe ((1 + a * 9 / 47) / (1/2)) : ℤ) : ℚ) ≤
          ((rhe ((1 + b * 9 / 47) / (1/2)) : ℤ) : ℚ) := by
        exact_mod_cast rhe_mono hu
      exact max_le_max (le_refl 1) (min_le_min (le_refl 10) (by linarith))

/-! Properties of the validator and scorer. -/

/-- Total point value of a list of answers (each entry contributing its
table value). -/
def sumPts (l : List Answer) : ℕ := (l.map fun a => (answerPts a).getD 0).sum

/-- Largest point value available for each question in GL_SCORING_KEY. -/
def maxPts (q : ℕ) : ℕ := if q = 4 ∨ q = 5 ∨ q = 9 ∨ q = 10 then 3 else 4

lemma GL_SCORING_KEY_none {q : ℕ} (hc : ¬ (1 ≤ q ∧ q ≤ 13)) :
    GL_SCORING_KEY q = none := by
  unfold GL_SCORING_KEY
  rw [if_neg (by omega : ¬ q = 1), if_neg (by omega : ¬ q = 2),
    if_neg (by omega : ¬ q = 3), if_neg (by omega : ¬ q = 4),
    if_neg (by omega : ¬ q = 5), if_neg (by omega : ¬ q = 6),
    if_neg (by omega : ¬ q = 7), if_neg (by omega : ¬ q = 8),
    if_neg (by omega : ¬ q = 9), if_neg (by omega : ¬ q = 10),
    if_neg (by omega : ¬ q = 11), if_neg (by omega : ¬ q = 12),
    if_neg (by omega : ¬ q = 13)]

lemma GL_SCORING_KEY_isSome {q : ℕ} (h : (GL_SCORING_KEY q).isSome) :
    1 ≤ q ∧ q ≤ 13 := by
  by_contra hc
  rw [GL_SCORING_KEY_none hc] at h
  simp at h

lemma answerPts_key_isSome {a : Answer} {v : ℕ} (h : answerPts a = some v) :
    (GL_SCORING_KEY a.question).isSome := by
  rcases hkey : GL_SCORING_KEY a.question with _ | row
  · rw [answerPts, hkey] at h
    simp at h
  · simp

lemma answerPts_bounds {a : Answer} {v : ℕ} (h : answerPts a = some v) :
    1 ≤ v ∧ v ≤ maxPts a.question := by
  obtain ⟨h1, h13⟩ := GL_SCORING_KEY_isSome (answerPts_key_isSome h)
  rcases a with ⟨q, c⟩
  simp only at h1 h13 ⊢
  interval_cases q <;> cases c <;>
    simp [answerPts, GL_SCORING_KEY, maxPts] at h ⊢ <;> omega

lemma maxPts_sum : (([1, 2, 3, 4, 5, 6, 7, 8, 9, 10, 11, 12, 13] : List ℕ).map
    maxPts).sum = 48 := by decide

lemma calcGo_run : ∀ (l : List Answer) (answered : Finset ℕ) (score : ℕ),
    (l.map Answer.question).Nodup →
    (∀ a ∈ l, a.question ∉ answered) →
    (∀ a ∈ l, (answerPts a).isSome) →
    calcGo answered score l =
      if (answered ∪ (l.map Answer.question).toFinset).card = 13
      then Except.ok (score + sumPts l)
      else Except.error GLError.incomplete := by
  intro l
  induction l with
  | nil =>
    intro answered score _ _ _
    by_cases hc : answered.card = 13 <;>
      simp [calcGo, sumPts, hc]
  | cons a t ih =>
    intro answered score hnd hdis hval
    have hmem : a.question ∉ answered := hdis a (List.mem_cons_self a t)
    have hsome : (answerPts a).isSome := hval a (List.mem_cons_self a t)
    have hnd2 : (a.question :: t.map Answer.question).Nodup := by simpa using hnd
    obtain ⟨row, hrow⟩ : ∃ row, GL_SCORING_KEY a.question = some row := by
      rcases hkey : GL_SCORING_KEY a.question with _ | row
      · rw [answerPts, hkey] at hsome
        simp at hsome
      · exact ⟨row, rfl⟩
    obtain ⟨v, hv⟩ : ∃ v, row a.answer = some v := by
      rcases hv : row a.answer with _ | v
      · rw [answerPts, hrow] at hsome
        simp [hv] at hsome
      · exact ⟨v, rfl⟩
    have hdis2 : ∀ b ∈ t, b.question ∉ insert a.question answered := by
      intro b hb
      simp only [Finset.mem_insert, not_or]
      refine ⟨fun he => ?_, hdis b (List.mem_cons_of_mem a hb)⟩
      exact (List.nodup_cons.mp hnd2).1 (he ▸ List.mem_map_of_mem Answer.question hb)
    have step : calcGo answered score (a :: t)
        = calcGo (insert a.question answered) (score + v) t := by
      simp only [calcGo, if_neg hmem, hrow, hv]
    rw [step, ih (insert a.question answered) (score + v)
      (List.nodup_cons.mp hnd2).2 hdis2 (fun b hb => hval b (List.mem_cons_of_mem a hb))]
    have hset : insert a.question answered ∪ (t.map Answer.question).toFinset
        = answered ∪ ((a :: t).map Answer.question).toFinset := by
      simp [List.map_cons, List.toFinset_cons, Finset.insert_union, Finset.union_insert]
    have hgetd : (answerPts a).getD 0 = v := by
      rw [answerPts, hrow]
      simp [hv]
    have hsum : score + v + sumPts t = score + sumPts (a :: t) := by
      simp only [sumPts, List.map_cons, List.sum_cons, hgetd]
      omega
    rw [hset, hsum]

lemma calcGo_dup : ∀ (l : List Answer) (answered : Finset ℕ) (score : ℕ),
    (∀ a ∈ l, (answerPts a).isSome) →
    ¬ ((l.map Answer.question).Nodup ∧ ∀ a ∈ l, a.question ∉ answered) →
    ∃ d, calcGo answered score l = Except.error (GLError.duplicate d)
      ∧ d ∈ l.map Answer.question := by
  intro l
  induction l with
  | nil =>
    intro answered score _ hclash
    exact absurd ⟨List.nodup_nil, by simp⟩ hclash
  | cons a t ih =>
    intro answered score hval hclash
    by_cases hmem : a.question ∈ answered
    · refine ⟨a.question, ?_, by simp⟩
      simp [calcGo, hmem]
    · have hsome : (answerPts a).isSome := hval a (List.mem_cons_self a t)
      obtain ⟨row, hrow⟩ : ∃ row, GL_SCORING_KEY a.question = some row := by
        rcases hkey : GL_SCORING_KEY a.question with _ | row
        · rw [answerPts, hkey] at hsome
          simp at hsome
        · exact ⟨row, rfl⟩
      obtain ⟨v, hv⟩ : ∃ v, row a.answer = some v := by
        rcases hv : row a.answer with _ | v
        · rw [answerPts, hrow] at hsome
          simp [hv] at hsome
        · exact ⟨v, rfl⟩
      have step : calcGo answered score (a :: t)
          = calcGo (insert a.question answered) (score + v) t := by
        simp only [calcGo, if_neg hmem, hrow, hv]
      have hclash2 : ¬ ((t.map Answer.question).Nodup
          ∧ ∀ b ∈ t, b.question ∉ insert a.question answered) := by
        intro ⟨hnd, hdis⟩
        refine hclash ⟨?_, ?_⟩
        · simp only [List.map_cons, List.nodup_cons]
          refine ⟨fun hmm => ?_, hnd⟩
          obtain ⟨b, hb, hbq⟩ := List.mem_map.mp hmm
          exact (hdis b hb) (by simp [hbq])
        · intro b hb
          rcases List.mem_cons.mp hb with rfl | hb'
          · exact hmem
          · intro hin
            exact (hdis b hb') (Finset.mem_insert_of_mem hin)
      obtain ⟨d, hd, hdm⟩ := ih (insert a.question answered) (score + v)
        (fun b hb => hval b (List.mem_cons_of_mem a hb)) hclash2
      exact ⟨d, by rw [step, hd], by simp [List.mem_cons]; right; simpa using hdm⟩

lemma length_le_sum : ∀ l : List ℕ, (∀ x ∈ l, 1 ≤ x) → l.length ≤ l.sum := by
  intro l
  induction l with
  | nil => intro _; simp
  | cons x t ih =>
    intro h
    have hx := h x (List.mem_cons_self x t)
    have ht := ih fun y hy => h y (List.mem_cons_of_mem x hy)
    simp only [List.length_cons, List.sum_cons]
    omega

/-- Evaluation of the whole pipeline on the all-maximum answer set. -/
lemma assess_risk_allMax_eval :
    assess_risk allMaxAnswers = Except.ok ⟨48, 10, "Agresif", 10, 20, 70⟩ := by
  have h1 : calculate_gl_score allMaxAnswers = Except.ok 48 := by decide
  have h2 : scale_to_bibit_score 48 = 10 := by norm_num [scale_to_bibit_score]
  have h3 : get_allocations 10 = Except.ok ⟨"Agresif", 10, 20, 70⟩ := by
    norm_num [get_allocations, BIBIT_ALLOCATIONS]
  simp [assess_risk, h1, h2, h3]

/-! The claims. -/

/-- C1 (counterexample): the answer set choosing the maximum-point choice for
every question is a valid 13-answer set, yet calculate_gl_score returns 48,
which is outside the claimed range [13, 47]. -/
theorem claim_C1_counterexample :
    calculate_gl_score allMaxAnswers = Except.ok 48 ∧ ¬ ((48:ℚ) ≤ 47) := by
  constructor
  · decide
  · norm_num

/-- C1 (amended): for every valid answer set in which every question id 1-13
appears exactly once and each choice is valid for its question,
calculate_gl_score does not fail and returns a value in the range [13, 48]
(the true maximum of the table is 48, not 47: nine questions reach 4 points and
four questions reach 3). -/
theorem claim_C1_amended (l : List Answer)
    (hperm : (l.map Answer.question).Perm [1, 2, 3, 4, 5, 6, 7, 8, 9, 10, 11, 12, 13])
    (hval : ∀ a ∈ l, (answerPts a).isSome) :
    ∃ s : ℕ, calculate_gl_score l = Except.ok (s : ℚ) ∧ 13 ≤ s ∧ s ≤ 48 := by
  have hnd : (l.map Answer.question).Nodup := hperm.nodup_iff.mpr (by decide)
  have hrun := calcGo_run l ∅ 0 hnd (by simp) hval
  have hcard : (∅ ∪ (l.map Answer.question).toFinset).card = 13 := by
    rw [Finset.empty_union, List.toFinset_eq_of_perm _ _ hperm]
    decide
  rw [hcard, if_pos rfl, Nat.zero_add] at hrun
  refine ⟨sumPts l, by simp [calculate_gl_score, hrun, Except.map], ?_, ?_⟩
  · have hlen : l.length = 13 := by simpa using hperm.length_eq
    have hone : ∀ x ∈ l.map (fun a => (answerPts a).getD 0), 1 ≤ x := by
      intro x hx
      obtain ⟨a, ha, rfl⟩ := List.mem_map.mp hx
      obtain ⟨v, hv⟩ := Option.isSome_iff_exists.mp (hval a ha)
      rw [hv]
      simpa using (answerPts_bounds hv).1
    have := length_le_sum _ hone
    simpa [sumPts, hlen] using this
  · have hle : sumPts l ≤ ((l.map Answer.question).map maxPts).sum := by
      rw [sumPts, List.map_map]
      refine List.sum_le_sum fun a ha => ?_
      obtain ⟨v, hv⟩ := Option.isSome_iff_exists.mp (hval a ha)
      rw [hv]
      simpa using (answerPts_bounds hv).2
    have heq : ((l.map Answer.question).map maxPts).sum
        = (([1, 2, 3, 4, 5, 6, 7, 8, 9, 10, 11, 12, 13] : List ℕ).map maxPts).sum :=
      (hperm.map maxPts).sum_eq
    rw [heq, maxPts_sum] at hle
    exact hle

/-- C1 (witness): the amended range theorem applied to the all-minimum
answer set. -/
theorem claim_C1_witness :
    ∃ s : ℕ, calculate_gl_score allMinAnswers = Except.ok (s : ℚ) ∧ 13 ≤ s ∧ s ≤ 48 :=
  claim_C1_amended allMinAnswers (by decide) (by decide)

/-- C2 (counterexample): on the all-maximum answer set the pipeline does not
return raw score 47 with profile "Aggressive": the raw score is 48 and the
profile string is the localized "Agresif". -/
theorem claim_C2_counterexample :
    assess_risk allMaxAnswers ≠ Except.ok ⟨47, 10, "Aggressive", 10, 20, 70⟩ := by
  rw [assess_risk_allMax_eval]
  intro hc
  have := (Except.ok.inj hc)
  rw [AllocationResponse.mk.injEq] at this
  exact absurd this.1 (by norm_num)

/-- C2 (amended): the all-maximum answer set yields raw score 48 (not 47),
normalized tier 10.0, profile "Agresif" (the localized label used by the code), and
allocation money_market=10, obligation=20, stocks=70. -/
theorem claim_C2_amended :
    assess_risk allMaxAnswers = Except.ok ⟨48, 10, "Agresif", 10, 20, 70⟩ :=
  assess_risk_allMax_eval

/-- C3: composing the rescaler with the allocation lookup never fails — for
every rational input, get_allocations on the rescaled value returns a record
(AllocationNotConfigured is unreachable), because each of the 19 possible
tier outputs has a BIBIT_ALLOCATIONS entry. -/
theorem claim_C3 (x : ℚ) :
    ∃ r, get_allocations (scale_to_bibit_score x) = Except.ok r := by
  have hall : ∀ t ∈ tierValues, (BIBIT_ALLOCATIONS t).isSome := by
    intro t ht
    fin_cases ht <;> norm_num [BIBIT_ALLOCATIONS]
  obtain ⟨r, hr⟩ := Option.isSome_iff_exists.mp (hall _ (scale_mem_tiers x))
  exact ⟨r, by simp [get_allocations, hr]⟩

/-- C4: scale_to_bibit_score is total (it is a Lean function with no error
channel) and its output always lies in the 19-element set
{1.0, 1.5, ..., 10.0} of multiples of 0.5 between 1.0 and 10.0. -/
theorem claim_C4 (x : ℚ) : scale_to_bibit_score x ∈ tierValues :=
  scale_mem_tiers x

/-- Rescaler written exactly as the spec describes it: inputs at most 0 give
exactly 1.0, inputs at least 47 give exactly 10.0, and in between the linear
interpolation 1 + x * 9 / 47 is quantized to the nearest 0.5 step (divide by
0.5, round to nearest integer — ties to even, as Python rounds — and multiply
back by 0.5) and finally clamped into [1, 10]. -/
def scaleSpec (x : ℚ) : ℚ :=
  if x ≤ 0 then 1
  else if 47 ≤ x then 10
  else max 1 (min 10 ((rhe ((1 + x * 9 / 47) / (1/2)) : ℚ) * (1/2)))

/-- C5: scale_to_bibit_score agrees everywhere with the spec-side piecewise
description scaleSpec (clamp at 0 and 47, linear interpolation quantized to
the nearest 0.5 step, final clamp into [1, 10]). -/
theorem claim_C5 (x : ℚ) : scale_to_bibit_score x = scaleSpec x := by
  unfold scaleSpec
  split_ifs with h1 h2
  · exact scale_nonpos h1
  · exact scale_large (not_le.mp h1) h2
  · exact scale_eq_mid (not_le.mp h1) (not_le.mp h2)

/-- C6 (counterexample): a list submitting question 4 twice fails with the
invalid-choice error, not the duplicate error, because the choice "D" of its first entry is checked (and rejected) before the second occurrence of the
question id is ever scanned — the clause "regardless of the choices
submitted anywhere in the list" is false. -/
theorem claim_C6_counterexample :
    calculate_gl_score [⟨4, Choice.D⟩, ⟨4, Choice.A⟩]
        = Except.error (GLError.invalidChoice 4 Choice.D)
      ∧ calculate_gl_score [⟨4, Choice.D⟩, ⟨4, Choice.A⟩]
        ≠ Except.error (GLError.duplicate 4) := by
  constructor
  · decide
  · decide

/-- C6 (amended): for every answer list containing the same question id in
two distinct entries, provided the choice of every entry is one the scoring table
defines for its question (so no earlier invalid-choice or unknown-question
failure preempts the scan), calculate_gl_score fails with the
DuplicateQuestion error for some question id occurring in the list (the
first one detected as repeated). -/
theorem claim_C6_amended (l : List Answer)
    (hdup : ¬ (l.map Answer.question).Nodup)
    (hval : ∀ a ∈ l, (answerPts a).isSome) :
    ∃ d, calculate_gl_score l = Except.error (GLError.duplicate d)
      ∧ d ∈ l.map Answer.question := by
  obtain ⟨d, hd, hdm⟩ := calcGo_dup l ∅ 0 hval fun hc => hdup hc.1
  exact ⟨d, by simp [calculate_gl_score, hd, Except.map], hdm⟩

/-- C6 (witness): the amended duplicate theorem applied to a two-entry list
repeating question 1 with valid choices. -/
theorem claim_C6_witness :
    ∃ d, calculate_gl_score [⟨1, Choice.A⟩, ⟨1, Choice.B⟩]
        = Except.error (GLError.duplicate d)
      ∧ d ∈ ([⟨1, Choice.A⟩, ⟨1, Choice.B⟩] : List Answer).map Answer.question :=
  claim_C6_amended [⟨1, Choice.A⟩, ⟨1, Choice.B⟩] (by decide) (by decide)

lemma BIBIT_record_props {t : ℚ} {r : AllocationRecord}
    (h : BIBIT_ALLOCATIONS t = some r) :
    0 ≤ r.money_market ∧ 0 ≤ r.obligation ∧ 0 ≤ r.stocks
      ∧ r.money_market + r.obligation + r.stocks = 100 := by
  unfold BIBIT_ALLOCATIONS at h
  by_cases h1 : t = 1
  · rw [if_pos h1] at h
    injection h with h
    subst h
    norm_num
  rw [if_neg h1] at h
  by_cases h2 : t = 3/2
  · rw [if_pos h2] at h
    injection h with h
    subst h
    norm_num
  rw [if_neg h2] at h
  by_cases h3 : t = 2
  · rw [if_pos h3] at h
    injection h with h
    subst h
    norm_num
  rw [if_neg h3] at h
  by_cases h4 : t = 5/2
  · rw [if_pos h4] at h
    injection h with h
    subst h
    norm_num
  rw [if_neg h4] at h
  by_cases h5 : t = 3
  · rw [if_pos h5] at h
    injection h with h
    subst h
    norm_num
  rw [if_neg h5] at h
  by_cases h6 : t = 7/2
  · rw [if_pos h6] at h
    injection h with h
    subst h
    norm_num
  rw [if_neg h6] at h
  by_cases h7 : t = 4
  · rw [if_pos h7] at h
    injection h with h
    subst h
    norm_num
  rw [if_neg h7] at h
  by_cases h8 : t = 9/2
  · rw [if_pos h8] at h
    injection h with h
    subst h
    norm_num
  rw [if_neg h8] at h
  by_cases h9 : t = 5
  · rw [if_pos h9] at h
    injection h with h
    subst h
    norm_num
  rw [if_neg h9] at h
  by_cases h10 : t = 11/2
  · rw [if_pos h10] at h
    injection h with h
    subst h
    norm_num
  rw [if_neg h10] at h
  by_cases h11 : t = 6
  · rw [if_pos h11] at h
    injection h with h
    subst h
    norm_num
  rw [if_neg h11] at h
  by_cases h12 : t = 13/2
  · rw [if_pos h12] at h
    injection h with h
    subst h
    norm_num
  rw [if_neg h12] at h
  by_cases h13 : t = 7
  · rw [if_pos h13] at h
    injection h with h
    subst h
    norm_num
  rw [if_neg h13] at h
  by_cases h14 : t = 15/2
  · rw [if_pos h14] at h
    injection h with h
    subst h
    norm_num
  rw [if_neg h14] at h
  by_cases h15 : t = 8
  · rw [if_pos h15] at h
    injection h with h
    subst h
    norm_num
  rw [if_neg h15] at h
  by_cases h16 : t = 17/2
  · rw [if_pos h16] at h
    injection h with h
    subst h
    norm_num
  rw [if_neg h16] at h
  by_cases h17 : t = 9
  · rw [if_pos h17] at h
    injection h with h
    subst h
    norm_num
  rw [if_neg h17] at h
  by_cases h18 : t = 19/2
  · rw [if_pos h18] at h
    injection h with h
    subst h
    norm_num
  rw [if_neg h18] at h
  by_cases h19 : t = 10
  · rw [if_pos h19] at h
    injection h with h
    subst h
    norm_num
  rw [if_neg h19] at h
  exact absurd h (by simp)

/-- C7: every one of the 19 tier keys has a record in BIBIT_ALLOCATIONS, and
the three weights of every record are non-negative and sum to exactly 100. -/
theorem claim_C7 (t : ℚ) (ht : t ∈ tierValues) :
    ∃ r, BIBIT_ALLOCATIONS t = some r
      ∧ 0 ≤ r.money_market ∧ 0 ≤ r.obligation ∧ 0 ≤ r.stocks
      ∧ r.money_market + r.obligation + r.stocks = 100 := by
  have hs : (BIBIT_ALLOCATIONS t).isSome := by
    fin_cases ht <;> norm_num [BIBIT_ALLOCATIONS]
  obtain ⟨r, hr⟩ := Option.isSome_iff_exists.mp hs
  obtain ⟨p1, p2, p3, p4⟩ := BIBIT_record_props hr
  exact ⟨r, hr, p1, p2, p3, p4⟩

/-- C7 (witness): the allocation-record invariant at tier 10.0. -/
theorem claim_C7_witness :
    ∃ r, BIBIT_ALLOCATIONS 10 = some r
      ∧ 0 ≤ r.money_market ∧ 0 ≤ r.obligation ∧ 0 ≤ r.stocks
      ∧ r.money_market + r.obligation + r.stocks = 100 :=
  claim_C7 10 (by norm_num [tierValues])

/-- C8: an answer list with no duplicate, no unknown question and no invalid
choice, whose set of distinct answered question ids is not the full set
{1, ..., 13}, makes calculate_gl_score fail with the IncompleteAnswerSet
error after scanning all entries. -/
theorem claim_C8 (l : List Answer)
    (hnd : (l.map Answer.question).Nodup)
    (hval : ∀ a ∈ l, (answerPts a).isSome)
    (hne : (l.map Answer.question).toFinset ≠ Finset.Icc 1 13) :
    calculate_gl_score l = Except.error GLError.incomplete := by
  have hrun := calcGo_run l ∅ 0 hnd (by simp) hval
  have hsub : (l.map Answer.question).toFinset ⊆ Finset.Icc 1 13 := by
    intro x hx
    rw [List.mem_toFinset] at hx
    obtain ⟨a, ha, rfl⟩ := List.mem_map.mp hx
    obtain ⟨v, hv⟩ := Option.isSome_iff_exists.mp (hval a ha)
    exact Finset.mem_Icc.mpr (GL_SCORING_KEY_isSome (answerPts_key_isSome hv))
  have hlt : (l.map Answer.question).toFinset.card < 13 := by
    have hss := Finset.card_lt_card ((Finset.ssubset_iff_subset_ne).mpr ⟨hsub, hne⟩)
    simpa [Nat.card_Icc] using hss
  rw [Finset.empty_union] at hrun
  rw [calculate_gl_score, hrun, if_neg (by omega)]
  rfl

/-- C8 (witness): the incomplete-set theorem applied to a 12-entry valid
list missing question 13. -/
theorem claim_C8_witness :
    calculate_gl_score
      [⟨1, Choice.A⟩, ⟨2, Choice.A⟩, ⟨3, Choice.A⟩, ⟨4, Choice.A⟩, ⟨5, Choice.A⟩,
       ⟨6, Choice.A⟩, ⟨7, Choice.A⟩, ⟨8, Choice.A⟩, ⟨9, Choice.A⟩, ⟨10, Choice.A⟩,
       ⟨11, Choice.A⟩, ⟨12, Choice.A⟩] = Except.error GLError.incomplete :=
  claim_C8 _ (by decide) (by decide) (by decide)

/-- C9: the pipeline is deterministic — assess_risk is a pure function of
the submitted answer list, so equal inputs give identical results (same
success response or same error). -/
theorem claim_C9 (l1 l2 : List Answer) (h : l1 = l2) :
    assess_risk l1 = assess_risk l2 := by
  rw [h]

/-- C9 (witness): determinism instantiated on the all-minimum answer set. -/
theorem claim_C9_witness : assess_risk allMinAnswers = assess_risk allMinAnswers :=
  claim_C9 allMinAnswers allMinAnswers rfl

/-- C10: scale_to_bibit_score is monotone non-decreasing — a higher raw
score never yields a lower normalized tier. -/
theorem claim_C10 (a b : ℚ) (h : a ≤ b) :
    scale_to_bibit_score a ≤ scale_to_bibit_score b :=
  scale_mono h

/-- C10 (witness): monotonicity instantiated at 0 ≤ 47. -/
theorem claim_C10_witness : scale_to_bibit_score 0 ≤ scale_to_bibit_score 47 :=
  claim_C10 0 47 (by norm_num)
